import Mathlib

/-!
# Verification of the calculator key-event state machine

A shallow embedding of `src/calculator.py` (class `Calculator`): the
9-digit calculator state machine driven one key event at a time, with
its number formatter.  Numeric values are idealized as exact fractions;
the CPython float behaviours that the embedded code relies on
(`float(str)` parsing, `str(float)` rendering, and the `.e` scientific
formatting) are modelled as executable functions on those fractions,
restricted to finite decimal forms.
-/

namespace Calc

/-! ## Character and digit helpers -/

/-- The character for a decimal digit value (`0` ↦ `'0'`, …, `9` ↦ `'9'`);
values above nine collapse to `'9'` (never reached on the calculator's
actual inputs). -/
def digitChar (n : Nat) : Char :=
  match n with
  | 0 => '0'
  | 1 => '1'
  | 2 => '2'
  | 3 => '3'
  | 4 => '4'
  | 5 => '5'
  | 6 => '6'
  | 7 => '7'
  | 8 => '8'
  | _ => '9'

/-- Decimal digits of a natural number, most significant first
(fuel-structured recursion; `fuel = n + 1` always suffices). -/
def natToDigitsAux (fuel : Nat) (n : Nat) : List Char :=
  match fuel with
  | 0 => []
  | f + 1 =>
    if n < 10 then [digitChar n]
    else natToDigitsAux f (n / 10) ++ [digitChar (n % 10)]

/-- Decimal digit characters of a natural number, most significant first. -/
def natToDigits (n : Nat) : List Char :=
  natToDigitsAux (n + 1) n

/-- Numeric value of a list of digit characters (as Python int parsing of
a digit run). -/
def digitsToNat (l : List Char) : Nat :=
  l.foldl (fun acc c => acc * 10 + (c.toNat - 48)) 0

/-- Drop all trailing occurrences of a character, modelling Python
`str.rstrip(ch)` for a single-character strip set. -/
def stripTrailing (ch : Char) (l : List Char) : List Char :=
  (l.reverse.dropWhile (fun c => c == ch)).reverse

/-! ## Exact fractions

Python float values are idealized as exact fractions.  The fraction
type is kept non-normalized (no gcd reduction) so that every operation
is plain integer arithmetic; all operations below keep the denominator
positive.  Numeric comparisons are by cross-multiplication, so the
representation is semantically transparent. -/

/-- An exact fraction `num / den`; the operations keep `den` positive. -/
structure Frac where
  num : ℤ
  den : ℕ
deriving DecidableEq, Repr

namespace Frac

/-- The fraction for a natural number. -/
def ofNat (n : ℕ) : Frac := ⟨n, 1⟩

/-- The fraction for an integer. -/
def ofInt (n : ℤ) : Frac := ⟨n, 1⟩

/-- Numeric test against zero (valid whenever `den` is positive). -/
def isZero (a : Frac) : Bool := a.num == 0

/-- Numeric sign test (valid whenever `den` is positive). -/
def isNeg (a : Frac) : Bool := a.num < 0

def add (a b : Frac) : Frac := ⟨a.num * b.den + b.num * a.den, a.den * b.den⟩

def sub (a b : Frac) : Frac := ⟨a.num * b.den - b.num * a.den, a.den * b.den⟩

def mul (a b : Frac) : Frac := ⟨a.num * b.num, a.den * b.den⟩

/-- Division, keeping the denominator positive whatever the sign of the
divisor.  Meaningful only for a divisor with nonzero numerator, which
every caller checks first. -/
def div (a b : Frac) : Frac :=
  if 0 ≤ b.num then ⟨a.num * b.den, a.den * b.num.toNat⟩
  else ⟨-(a.num * b.den), a.den * (-b.num).toNat⟩

/-- Multiply by a natural number. -/
def mulNat (a : Frac) (n : ℕ) : Frac := ⟨a.num * n, a.den⟩

/-- Negation. -/
def neg (a : Frac) : Frac := ⟨-a.num, a.den⟩

/-- Absolute value (valid whenever `den` is positive). -/
def fabs (a : Frac) : Frac := ⟨(a.num.natAbs : ℤ), a.den⟩

/-- Multiply by an integer power of ten. -/
def mulPow10 (a : Frac) (e : ℤ) : Frac :=
  if 0 ≤ e then ⟨a.num * (10 : ℤ) ^ e.toNat, a.den⟩
  else ⟨a.num, a.den * 10 ^ (-e).toNat⟩

/-- Numeric comparison (valid whenever both denominators are positive). -/
def fle (a b : Frac) : Bool := decide (a.num * b.den ≤ b.num * a.den)

/-- Floor of a nonnegative fraction as an integer (for a nonnegative
numerator, truncating integer division is the floor). -/
def floor (a : Frac) : ℤ := a.num / (a.den : ℤ)

end Frac

/-! ## Model of Python float parsing

`pyFloat` models CPython `float(s)` restricted to finite decimal
literals: an optional sign, a digit run with at most one inner point
(at least one digit overall), and an optional `e`/`E` exponent with an
optional sign and at least one digit.  Surrounding whitespace,
underscores and the `inf`/`nan` forms are outside the idealization (no
such string is ever produced by the calculator).  `none` models a
`ValueError` raised by `float`. -/

/-- Parse an optional leading sign; `true` means negative. -/
def takeSign : List Char → Bool × List Char
  | '-' :: t => (true, t)
  | '+' :: t => (false, t)
  | l => (false, l)

/-- Parse the mantissa `digits[.digits]` part of a float literal into a
fraction, requiring every character to be a digit and at least one
digit in total. -/
def parseMantissa (l : List Char) : Option Frac :=
  let ip := l.takeWhile (fun c => c ≠ '.')
  let rest := l.drop ip.length
  match rest with
  | [] =>
    if ip.all Char.isDigit ∧ ip ≠ [] then some (Frac.ofNat (digitsToNat ip)) else none
  | '.' :: fr =>
    if ip.all Char.isDigit ∧ fr.all Char.isDigit ∧ (ip ≠ [] ∨ fr ≠ []) then
      some (Frac.add (Frac.ofNat (digitsToNat ip))
        (Frac.div (Frac.ofNat (digitsToNat fr)) (Frac.ofNat (10 ^ fr.length))))
    else none
  | _ => none

/-- Parse the exponent digit run (after `e`/`E`), with optional sign. -/
def parseExponent (l : List Char) : Option ℤ :=
  let (sg, l) := takeSign l
  if l.all Char.isDigit ∧ l ≠ [] then
    some ((if sg then -1 else 1) * (digitsToNat l : ℤ))
  else none

/-- Model of CPython `float(s)` on finite decimal literals, as an exact
fraction; `none` models `ValueError`. -/
def pyFloat (s : String) : Option Frac :=
  let (sg, l) := takeSign s.data
  let mant := l.takeWhile (fun c => c ≠ 'e' ∧ c ≠ 'E')
  let rest := l.drop mant.length
  match parseMantissa mant with
  | none => none
  | some m =>
    let m := if sg then m.neg else m
    match rest with
    | [] => some m
    | _ :: ex =>
      match parseExponent ex with
      | none => none
      | some e => some (m.mulPow10 e)

/-! ## Model of Python float rendering -/

/-- Decimal expansion of the fractional part `q ∈ [0, 1)`, one digit per
fuel step, stopping early when the remainder is exactly zero. -/
def fracDigits (q : Frac) (fuel : Nat) : List Char :=
  match fuel with
  | 0 => []
  | f + 1 =>
    if q.isZero then []
    else
      let d := Frac.floor (q.mulNat 10)
      digitChar d.toNat :: fracDigits ((q.mulNat 10).sub (Frac.ofInt d)) f

/-- Model of CPython `str(value)` for a float, idealized to exact
fractions: sign, integer part, `.`, and the exact fractional expansion
up to 17 digits (the double shortest-repr budget), with at least one
fractional digit, as in `str(8.0) = "8.0"`.  Scientific-notation
switch-over for very large or very small magnitudes is outside the
idealization. -/
def strOfFloat (q : Frac) : String :=
  let sg : List Char := if q.isNeg then ['-'] else []
  let a := q.fabs
  let ip := (Frac.floor a).toNat
  let ds := fracDigits (a.sub (Frac.ofNat ip)) 17
  let ds := if ds = [] then ['0'] else ds
  String.mk (sg ++ natToDigits ip ++ '.' :: ds)

/-- Left-pad a digit run with `'0'` up to a given length. -/
def padLeftZeros (l : List Char) (n : Nat) : List Char :=
  List.replicate (n - l.length) '0' ++ l

/-- Exponent digit characters for scientific notation: at least two
digits, as in `e+05`. -/
def expDigits (e : ℤ) : List Char :=
  padLeftZeros (natToDigits e.natAbs) 2

/-- Least `k ≥ 1` with `a * 10 ^ k ≥ 1`, for `0 < a < 1`
(fuel-structured; the denominator digit count bounds the search). -/
def smallExpAux (a : Frac) (fuel : Nat) : Nat :=
  match fuel with
  | 0 => 1
  | f + 1 => if (Frac.ofNat 1).fle (a.mulNat 10) then 1 else 1 + smallExpAux (a.mulNat 10) f

/-- Decimal exponent of a positive fraction: the `e` with
`10 ^ e ≤ a < 10 ^ (e + 1)`. -/
def decExponent (a : Frac) : ℤ :=
  if (Frac.ofNat 1).fle a then ((natToDigits (Frac.floor a).toNat).length : ℤ) - 1
  else -(smallExpAux a ((natToDigits a.den).length + 1) : ℤ)

/-- Mantissa characters `d.dddd` (no point when the precision is zero). -/
def mantissaChars (ds : List Char) (prec : Nat) : List Char :=
  match ds with
  | [] => ['0']
  | h :: t => if prec = 0 then [h] else h :: '.' :: t

/-- Model of CPython `f"{value:.{prec}e}"` scientific formatting on the
fraction idealization: rounded mantissa with `prec` fractional digits,
`e`, explicit exponent sign and at least two exponent digits. -/
def sciFormat (prec : Nat) (q : Frac) : String :=
  if q.isZero then
    String.mk (mantissaChars (List.replicate (prec + 1) '0') prec ++
      'e' :: '+' :: ['0', '0'])
  else
    let sg : List Char := if q.isNeg then ['-'] else []
    let a := q.fabs
    let e := decExponent a
    let scaled := a.mulPow10 ((prec : ℤ) - e)
    let n := (Frac.floor (scaled.add ⟨1, 2⟩)).toNat
    let ne : Nat × ℤ := if 10 ^ (prec + 1) ≤ n then (n / 10, e + 1) else (n, e)
    let ds := padLeftZeros (natToDigits ne.1) (prec + 1)
    String.mk (sg ++ mantissaChars ds prec ++
      'e' :: (if 0 ≤ ne.2 then '+' else '-') :: expDigits ne.2)

/-! ## The calculator state -/

/-- The mutable state of `Calculator` in `src/calculator.py`: the
construction parameter `display_size` and the six fields set by
`__init__` / `begin`. -/
structure Calculator where
  display_size : Nat
  last_key_was_operation : Bool
  operation_char : Option Char
  no_new_number_since_last_calc : Bool
  display_str : String
  num_str0 : String
  num_str1 : String
deriving DecidableEq, Repr

namespace Calculator

/-- `Calculator(display_size)`: construction with identity defaults. -/
def init (display_size : Nat) : Calculator :=
  { display_size := display_size
    last_key_was_operation := false
    operation_char := none
    no_new_number_since_last_calc := false
    display_str := "0"
    num_str0 := "0"
    num_str1 := "0" }

/-- `Calculator.begin`: reset every state field to its identity default
(the construction parameter is untouched). -/
def begin (s : Calculator) : Calculator :=
  { s with
    display_str := "0"
    num_str0 := "0"
    num_str1 := "0"
    last_key_was_operation := false
    operation_char := none
    no_new_number_since_last_calc := false }

/-- `Calculator._format_number` on a float argument, modelled on the
rational idealization.  `Except.error` models the `ValueError` raised by
the scientific f-string when `display_size - 5` is negative; that
exception escapes `_format_number` and is caught by the caller. -/
def formatNumber (sz : Nat) (q : Frac) : Except Unit String :=
  let result := strOfFloat q
  let result :=
    if '.' ∈ result.data then
      String.mk (stripTrailing '.' (stripTrailing '0' result.data))
    else result
  if result.length > sz + 1 then
    if sz < 5 then Except.error ()
    else
      let r := sciFormat (sz - 5) q
      let r := if r.length > sz + 1 then String.mk (r.data.take (sz + 1)) else r
      Except.ok (if r = "" then "0" else r)
  else Except.ok (if result = "" then "0" else result)

/-- `Calculator._handle_operator`. -/
def handleOperator (s : Calculator) (c : Char) : Calculator :=
  { s with
    operation_char := some c
    last_key_was_operation := true
    num_str0 := s.display_str }

/-- The operations dispatcher table of `_handle_equals`: lookup of
`operation_char` in the `operations` dict; the division entry yields
`none` on a zero second argument. -/
def opLookup (oc : Option Char) : Option (Frac → Frac → Option Frac) :=
  match oc with
  | some '+' => some (fun a b => some (a.add b))
  | some '-' => some (fun a b => some (a.sub b))
  | some '*' => some (fun a b => some (a.mul b))
  | some '/' => some (fun a b => if b.isZero then none else some (a.div b))
  | _ => none

/-- The second operand captured by `_handle_equals`: refreshed from the
display unless `no_new_number_since_last_calc` is already set. -/
def captured1 (s : Calculator) : String :=
  if s.no_new_number_since_last_calc then s.num_str1 else s.display_str

/-- `Calculator._handle_equals`.  The capture of the second operand, the
flag set and the display reset to `"0"` happen before the guarded
calculation; a parse failure of either operand, or a formatter
`ValueError`, is caught and shows `"Error"`, as does the `None` result
of dividing by zero. -/
def handleEquals (s : Calculator) : Calculator :=
  let base :=
    { s with
      num_str1 := captured1 s
      no_new_number_since_last_calc := true
      display_str := "0" }
  match pyFloat s.num_str0 with
  | none => { base with display_str := "Error" }
  | some num0 =>
    match pyFloat (captured1 s) with
    | none => { base with display_str := "Error" }
    | some num1 =>
      match opLookup s.operation_char with
      | none => base
      | some opFunc =>
        match opFunc num0 num1 with
        | none => { base with display_str := "Error" }
        | some result =>
          match formatNumber s.display_size result with
          | Except.error _ => { base with display_str := "Error" }
          | Except.ok formatted =>
            { base with num_str0 := formatted, display_str := formatted }

/-- `Calculator._handle_backspace`. -/
def handleBackspace (s : Calculator) : Calculator :=
  if s.display_str.length > 1 then
    { s with display_str := String.mk s.display_str.data.dropLast }
  else { s with display_str := "0" }

/-- `Calculator._handle_clear_entry`. -/
def handleClearEntry (s : Calculator) : Calculator :=
  { s with display_str := "0" }

/-- `Calculator._handle_clear_all`. -/
def handleClearAll (s : Calculator) : Calculator :=
  { s with
    display_str := "0"
    num_str0 := "0"
    num_str1 := "0"
    last_key_was_operation := false
    operation_char := none
    no_new_number_since_last_calc := false }

/-- `Calculator._handle_negate`. -/
def handleNegate (s : Calculator) : Calculator :=
  if s.display_str = "0" then { s with display_str := "-" }
  else if s.display_str.data.head? = some '-' then
    { s with display_str := String.mk (s.display_str.data.drop 1) }
  else { s with display_str := String.mk ('-' :: s.display_str.data) }

/-- `Calculator._handle_decimal`. -/
def handleDecimal (s : Calculator) : Calculator :=
  if s.last_key_was_operation then
    { s with display_str := "0.", last_key_was_operation := false }
  else if s.no_new_number_since_last_calc then
    { s with display_str := "0.", no_new_number_since_last_calc := false }
  else if '.' ∉ s.display_str.data then
    { s with display_str := String.mk (s.display_str.data ++ ['.']) }
  else s

/-- The digit count the digit handler checks against `display_size`:
the display length after removing every `.` and every `-`, as in
`len(display_str.replace(".", "").replace("-", ""))`. -/
def digitCount (str : String) : Nat :=
  (str.data.filter (fun c => !(c == '.' || c == '-'))).length

/-- `Calculator._handle_digit`. -/
def handleDigit (s : Calculator) (c : Char) : Calculator :=
  let s :=
    if s.last_key_was_operation then
      { s with display_str := "0", last_key_was_operation := false }
    else s
  let s :=
    if s.no_new_number_since_last_calc then
      { s with display_str := "0", no_new_number_since_last_calc := false }
    else s
  if digitCount s.display_str < s.display_size then
    if s.display_str = "0" then { s with display_str := String.mk [c] }
    else { s with display_str := String.mk (s.display_str.data ++ [c]) }
  else s

/-- `Calculator.parse`: the dispatcher.  Operators and the six command
characters are routed to their handlers, decimal digits to the digit
handler, and any other character is silently ignored. -/
def parse (s : Calculator) (c : Char) : Calculator :=
  if c = '+' ∨ c = '-' ∨ c = '*' ∨ c = '/' then handleOperator s c
  else if c = '=' then handleEquals s
  else if c = 'b' then handleBackspace s
  else if c = 'c' then handleClearEntry s
  else if c = 'C' then handleClearAll s
  else if c = 'n' then handleNegate s
  else if c = '.' then handleDecimal s
  else if c.isDigit then handleDigit s c
  else s

/-- Feed a sequence of key events to a calculator state. -/
def runFrom (s : Calculator) (events : List Char) : Calculator :=
  events.foldl parse s

/-- Feed a sequence of key events to a freshly constructed and reset
calculator of the given display size. -/
def run (sz : Nat) (events : List Char) : Calculator :=
  runFrom (begin (init sz)) events

end Calculator

/-! ## Shape lemmas for rendered numbers

Rendered numbers only contain digits, signs, the point and the
scientific `e`; in particular they are never the literal `"Error"`, and
they contain at most one point. -/

/-- Characters that can occur in a rendered number. -/
def goodChar (c : Char) : Bool :=
  c.isDigit || c == '.' || c == '-' || c == '+' || c == 'e'

/-- Occurrences of the decimal point in a string. -/
def dotCount (s : String) : Nat :=
  s.data.countP (fun c => c == '.')

theorem digitChar_isDigit (n : Nat) : (digitChar n).isDigit = true := by
  unfold digitChar
  split <;> decide

theorem isDigit_ne_dot {c : Char} (h : c.isDigit = true) : (c == '.') = false := by
  cases hc : c == '.'
  · rfl
  · exact absurd h (by rw [eq_of_beq hc]; decide)

theorem goodChar_of_isDigit {c : Char} (h : c.isDigit = true) : goodChar c = true := by
  simp [goodChar, h]

theorem countP_dot_of_digits {l : List Char} (h : ∀ c ∈ l, c.isDigit = true) :
    l.countP (fun c => c == '.') = 0 :=
  List.countP_eq_zero.mpr fun a ha hp => by
    simp only [isDigit_ne_dot (h a ha)] at hp
    exact Bool.false_ne_true hp

theorem natToDigitsAux_isDigit :
    ∀ (fuel n : Nat), ∀ c ∈ natToDigitsAux fuel n, c.isDigit = true := by
  intro fuel
  induction fuel with
  | zero => intro n c hc; simp [natToDigitsAux] at hc
  | succ f ih =>
    intro n c hc
    unfold natToDigitsAux at hc
    by_cases h : n < 10
    · rw [if_pos h] at hc
      simp at hc
      subst hc
      exact digitChar_isDigit n
    · rw [if_neg h] at hc
      rcases List.mem_append.mp hc with h1 | h2
      · exact ih _ c h1
      · simp at h2
        subst h2
        exact digitChar_isDigit _

theorem natToDigits_isDigit (n : Nat) : ∀ c ∈ natToDigits n, c.isDigit = true :=
  natToDigitsAux_isDigit (n + 1) n

theorem fracDigits_isDigit :
    ∀ (fuel : Nat) (q : Frac), ∀ c ∈ fracDigits q fuel, c.isDigit = true := by
  intro fuel
  induction fuel with
  | zero => intro q c hc; simp [fracDigits] at hc
  | succ f ih =>
    intro q c hc
    unfold fracDigits at hc
    by_cases h : q.isZero = true
    · rw [if_pos h] at hc; simp at hc
    · rw [if_neg h] at hc
      rcases List.mem_cons.mp hc with h1 | h2
      · subst h1; exact digitChar_isDigit _
      · exact ih _ c h2

theorem padLeftZeros_isDigit {l : List Char} (h : ∀ c ∈ l, c.isDigit = true)
    (n : Nat) : ∀ c ∈ padLeftZeros l n, c.isDigit = true := by
  intro c hc
  rcases List.mem_append.mp hc with h1 | h2
  · rw [List.eq_of_mem_replicate h1]; decide
  · exact h c h2

theorem expDigits_isDigit (e : ℤ) : ∀ c ∈ expDigits e, c.isDigit = true :=
  padLeftZeros_isDigit (natToDigits_isDigit e.natAbs) 2

theorem mantissaChars_nil (prec : Nat) : mantissaChars [] prec = ['0'] := rfl

theorem mantissaChars_cons (d : Char) (t : List Char) (prec : Nat) :
    mantissaChars (d :: t) prec = if prec = 0 then [d] else d :: '.' :: t := rfl

theorem mantissaChars_good {ds : List Char} (h : ∀ c ∈ ds, c.isDigit = true)
    (prec : Nat) : ∀ c ∈ mantissaChars ds prec, goodChar c = true := by
  intro c hc
  cases ds with
  | nil =>
    rw [mantissaChars_nil] at hc
    simp at hc
    subst hc
    decide
  | cons d t =>
    rw [mantissaChars_cons] at hc
    by_cases hp : prec = 0
    · rw [if_pos hp] at hc
      simp at hc
      rw [hc]
      exact goodChar_of_isDigit (h d (by simp))
    · rw [if_neg hp] at hc
      rcases List.mem_cons.mp hc with h1 | h2
      · rw [h1]; exact goodChar_of_isDigit (h d (by simp))
      · rcases List.mem_cons.mp h2 with h3 | h4
        · rw [h3]; decide
        · exact goodChar_of_isDigit (h c (by simp [h4]))

theorem mantissaChars_dot {ds : List Char} (h : ∀ c ∈ ds, c.isDigit = true)
    (prec : Nat) : (mantissaChars ds prec).countP (fun c => c == '.') ≤ 1 := by
  cases ds with
  | nil => rw [mantissaChars_nil]; decide
  | cons d t =>
    rw [mantissaChars_cons]
    by_cases hp : prec = 0
    · rw [if_pos hp]
      simp [List.countP_cons, isDigit_ne_dot (h d (by simp))]
    · rw [if_neg hp]
      have ht : t.countP (fun c => c == '.') = 0 :=
        countP_dot_of_digits fun c hc => h c (by simp [hc])
      simp [List.countP_cons, isDigit_ne_dot (h d (by simp)), ht]

theorem stripTrailing_sublist (ch : Char) (l : List Char) :
    (stripTrailing ch l).Sublist l := by
  unfold stripTrailing
  have h := (List.dropWhile_sublist (p := fun c => c == ch) (l := l.reverse)).reverse
  simpa using h

theorem data_mk (l : List Char) : (String.mk l).data = l := rfl

/-- A well-formed rendered number: only digit, sign, point and `e`
characters, and at most one point. -/
def wellFormedNum (s : String) : Prop :=
  (∀ c ∈ s.data, goodChar c = true) ∧ dotCount s ≤ 1

theorem wellFormedNum_of_sublist {l : List Char} {s : String}
    (hs : l.Sublist s.data) (h : wellFormedNum s) : wellFormedNum (String.mk l) :=
  ⟨fun c hc => h.1 c (hs.subset hc),
    le_trans (hs.countP_le (fun c => c == '.')) h.2⟩

theorem wellFormedNum_zero : wellFormedNum "0" := by
  constructor
  · intro c hc
    simp [String.data] at hc
    rw [hc]
    decide
  · decide

theorem strOfFloat_data (q : Frac) :
    (strOfFloat q).data =
      (if q.isNeg then ['-'] else []) ++ natToDigits (Frac.floor q.fabs).toNat ++
        '.' :: (if fracDigits (q.fabs.sub (Frac.ofNat (Frac.floor q.fabs).toNat)) 17 = []
                then ['0']
                else fracDigits (q.fabs.sub (Frac.ofNat (Frac.floor q.fabs).toNat)) 17) := rfl

theorem strOfFloat_wellFormed (q : Frac) : wellFormedNum (strOfFloat q) := by
  have hfrac : ∀ c ∈ (if fracDigits (q.fabs.sub (Frac.ofNat (Frac.floor q.fabs).toNat)) 17 = []
      then ['0']
      else fracDigits (q.fabs.sub (Frac.ofNat (Frac.floor q.fabs).toNat)) 17),
      c.isDigit = true := by
    intro c hc
    split at hc
    · simp at hc; rw [hc]; decide
    · exact fracDigits_isDigit 17 _ c hc
  constructor
  · intro c hc
    rw [strOfFloat_data] at hc
    rcases List.mem_append.mp hc with h1 | h2
    · rcases List.mem_append.mp h1 with h3 | h4
      · split at h3
        · simp at h3; rw [h3]; decide
        · simp at h3
      · exact goodChar_of_isDigit (natToDigits_isDigit _ c h4)
    · rcases List.mem_cons.mp h2 with h3 | h4
      · rw [h3]; decide
      · exact goodChar_of_isDigit (hfrac c h4)
  · unfold dotCount
    rw [strOfFloat_data]
    rw [List.countP_append, List.countP_append, List.countP_cons]
    have h1 : (if q.isNeg then ['-'] else []).countP (fun c => c == '.') = 0 := by
      split <;> decide
    rw [h1, countP_dot_of_digits (natToDigits_isDigit _), countP_dot_of_digits hfrac]
    decide

theorem sciFormat_wellFormed (prec : Nat) (q : Frac) :
    wellFormedNum (sciFormat prec q) := by
  unfold sciFormat
  by_cases h0 : q.isZero = true
  · rw [if_pos h0]
    have hrep : ∀ c ∈ List.replicate (prec + 1) '0', c.isDigit = true := by
      intro c hc; rw [List.eq_of_mem_replicate hc]; decide
    constructor
    · intro c hc
      rw [data_mk] at hc
      rcases List.mem_append.mp hc with h1 | h2
      · exact mantissaChars_good hrep prec c h1
      · rcases List.mem_cons.mp h2 with h | h2
        · rw [h]; decide
        · rcases List.mem_cons.mp h2 with h | h2
          · rw [h]; decide
          · rcases List.mem_cons.mp h2 with h | h2
            · rw [h]; decide
            · rcases List.mem_cons.mp h2 with h | h2
              · rw [h]; decide
              · simp at h2
    · unfold dotCount
      rw [data_mk, List.countP_append]
      have h2 : ('e' :: '+' :: ['0', '0']).countP (fun c => c == '.') = 0 := by decide
      rw [h2]
      simpa using mantissaChars_dot hrep prec
  · rw [if_neg h0]
    simp only []
    set e0 := decExponent q.fabs with he0
    set n0 := (Frac.floor ((q.fabs.mulPow10 ((prec : ℤ) - e0)).add ⟨1, 2⟩)).toNat with hn0
    set ne : Nat × ℤ := if 10 ^ (prec + 1) ≤ n0 then (n0 / 10, e0 + 1) else (n0, e0)
      with hne
    have hds : ∀ c ∈ padLeftZeros (natToDigits ne.1) (prec + 1), c.isDigit = true :=
      padLeftZeros_isDigit (natToDigits_isDigit _) _
    constructor
    · intro c hc
      rw [data_mk] at hc
      rcases List.mem_append.mp hc with h1 | h2
      · rcases List.mem_append.mp h1 with h3 | h4
        · split at h3
          · simp at h3; rw [h3]; decide
          · simp at h3
        · exact mantissaChars_good hds prec c h4
      · rcases List.mem_cons.mp h2 with h3 | h4
        · rw [h3]; decide
        · rcases List.mem_cons.mp h4 with h5 | h6
          · rw [h5]; split <;> decide
          · exact goodChar_of_isDigit (expDigits_isDigit _ c h6)
    · unfold dotCount
      rw [data_mk, List.countP_append, List.countP_append, List.countP_cons,
        List.countP_cons]
      have h1 : (if q.isNeg then ['-'] else []).countP (fun c => c == '.') = 0 := by
        split <;> decide
      have h2 : ((if (0 : ℤ) ≤ ne.2 then '+' else '-') == '.') = false := by
        split <;> decide
      rw [h1, countP_dot_of_digits (expDigits_isDigit _), h2]
      have := mantissaChars_dot hds prec
      simp
      omega

theorem formatNumber_ok_wellFormed {sz : Nat} {q : Frac} {r : String}
    (h : Calculator.formatNumber sz q = Except.ok r) : wellFormedNum r := by
  unfold Calculator.formatNumber at h
  dsimp only [] at h
  by_cases hdot : '.' ∈ (strOfFloat q).data
  · rw [if_pos hdot] at h
    set stripped := String.mk (stripTrailing '.' (stripTrailing '0' (strOfFloat q).data))
      with hstr
    have hwfs : wellFormedNum stripped :=
      wellFormedNum_of_sublist
        ((stripTrailing_sublist '.' _).trans (stripTrailing_sublist '0' _))
        (strOfFloat_wellFormed q)
    by_cases hlen : stripped.length > sz + 1
    · rw [if_pos hlen] at h
      by_cases hsz : sz < 5
      · rw [if_pos hsz] at h
        exact absurd h (by simp)
      · rw [if_neg hsz] at h
        by_cases hlen2 : (sciFormat (sz - 5) q).length > sz + 1
        · rw [if_pos hlen2] at h
          simp only [Except.ok.injEq] at h
          subst h
          split
          · exact wellFormedNum_zero
          · exact wellFormedNum_of_sublist (List.take_sublist _ _)
              (sciFormat_wellFormed (sz - 5) q)
        · rw [if_neg hlen2] at h
          simp only [Except.ok.injEq] at h
          subst h
          split
          · exact wellFormedNum_zero
          · exact sciFormat_wellFormed (sz - 5) q
    · rw [if_neg hlen] at h
      simp only [Except.ok.injEq] at h
      subst h
      split
      · exact wellFormedNum_zero
      · exact hwfs
  · rw [if_neg hdot] at h
    by_cases hlen : (strOfFloat q).length > sz + 1
    · rw [if_pos hlen] at h
      by_cases hsz : sz < 5
      · rw [if_pos hsz] at h
        exact absurd h (by simp)
      · rw [if_neg hsz] at h
        by_cases hlen2 : (sciFormat (sz - 5) q).length > sz + 1
        · rw [if_pos hlen2] at h
          simp only [Except.ok.injEq] at h
          subst h
          split
          · exact wellFormedNum_zero
          · exact wellFormedNum_of_sublist (List.take_sublist _ _)
              (sciFormat_wellFormed (sz - 5) q)
        · rw [if_neg hlen2] at h
          simp only [Except.ok.injEq] at h
          subst h
          split
          · exact wellFormedNum_zero
          · exact sciFormat_wellFormed (sz - 5) q
    · rw [if_neg hlen] at h
      simp only [Except.ok.injEq] at h
      subst h
      split
      · exact wellFormedNum_zero
      · exact strOfFloat_wellFormed q

theorem wellFormedNum_ne_error {s : String} (h : wellFormedNum s) : s ≠ "Error" := by
  intro he
  subst he
  have hE : goodChar 'E' = true := h.1 'E' (by decide)
  exact absurd hE (by decide)

/-! ## Dispatch lemmas -/

namespace Calculator

theorem isDigit_ne_commands {d : Char} (h : d.isDigit = true) :
    d ≠ '+' ∧ d ≠ '-' ∧ d ≠ '*' ∧ d ≠ '/' ∧ d ≠ '=' ∧ d ≠ 'b' ∧ d ≠ 'c' ∧
      d ≠ 'C' ∧ d ≠ 'n' ∧ d ≠ '.' := by
  refine ⟨?_, ?_, ?_, ?_, ?_, ?_, ?_, ?_, ?_, ?_⟩ <;>
    (rintro rfl; exact absurd h (by decide))

theorem parse_digit (s : Calculator) {d : Char} (h : d.isDigit = true) :
    parse s d = handleDigit s d := by
  obtain ⟨h1, h2, h3, h4, h5, h6, h7, h8, h9, h10⟩ := isDigit_ne_commands h
  unfold parse
  rw [if_neg (by rintro (rfl | rfl | rfl | rfl) <;> exact absurd h (by decide)),
    if_neg h5, if_neg h6, if_neg h7, if_neg h8, if_neg h9, if_neg h10, if_pos h]

theorem parse_equals (s : Calculator) : parse s '=' = handleEquals s := rfl

theorem parse_dot (s : Calculator) : parse s '.' = handleDecimal s := rfl

theorem parse_clear_all (s : Calculator) : parse s 'C' = handleClearAll s := rfl

/-! ## The display reached by the equals handler -/

theorem handleEquals_display_cases (s : Calculator) :
    (handleEquals s).display_str = "0" ∨ (handleEquals s).display_str = "Error" ∨
      wellFormedNum (handleEquals s).display_str := by
  unfold handleEquals
  dsimp only []
  rcases pyFloat s.num_str0 with _ | a
  · right; left; rfl
  · dsimp only []
    rcases pyFloat (captured1 s) with _ | b
    · right; left; rfl
    · dsimp only []
      rcases opLookup s.operation_char with _ | f
      · left; rfl
      · dsimp only []
        rcases f a b with _ | result
        · right; left; rfl
        · dsimp only []
          rcases hf : formatNumber s.display_size result with u | formatted
          · right; left; simp [hf]
          · right; right
            have : (match formatNumber s.display_size result with
                | Except.error _ => "Error"
                | Except.ok formatted => formatted) = formatted := by rw [hf]
            simp only [hf]
            exact formatNumber_ok_wellFormed hf

/-! ## Preservation of the decimal-point bound by every event -/

theorem handleDigit_display_cases (s : Calculator) (c : Char) :
    (handleDigit s c).display_str = s.display_str ∨
      (handleDigit s c).display_str = "0" ∨
      (handleDigit s c).display_str = String.mk [c] ∨
      (handleDigit s c).display_str = String.mk (s.display_str.data ++ [c]) ∨
      (handleDigit s c).display_str = String.mk (("0" : String).data ++ [c]) := by
  unfold handleDigit
  dsimp only []
  repeat' split
  all_goals
    first
      | exact Or.inl rfl
      | exact Or.inr (Or.inl rfl)
      | exact Or.inr (Or.inr (Or.inl rfl))
      | exact Or.inr (Or.inr (Or.inr (Or.inl rfl)))
      | exact Or.inr (Or.inr (Or.inr (Or.inr rfl)))

theorem dotCount_handleDigit (s : Calculator) {c : Char} (hc : c.isDigit = true)
    (h : dotCount s.display_str ≤ 1) :
    dotCount (handleDigit s c).display_str ≤ 1 := by
  rcases handleDigit_display_cases s c with h1 | h1 | h1 | h1 | h1 <;> rw [h1]
  · exact h
  · decide
  · simp [dotCount, data_mk, List.countP_cons, isDigit_ne_dot hc]
  · unfold dotCount at h ⊢
    rw [data_mk, List.countP_append]
    simpa [List.countP_cons, isDigit_ne_dot hc] using h
  · unfold dotCount
    rw [data_mk, List.countP_append]
    simp [List.countP_cons, isDigit_ne_dot hc]

theorem dotCount_parse (s : Calculator) (c : Char)
    (h : dotCount s.display_str ≤ 1) : dotCount (parse s c).display_str ≤ 1 := by
  unfold parse
  split
  · exact h
  split
  · rcases handleEquals_display_cases s with h0 | hE | hwf
    · rw [h0]; decide
    · rw [hE]; decide
    · exact hwf.2
  split
  · unfold handleBackspace
    split
    · unfold dotCount at h ⊢
      rw [data_mk]
      exact le_trans ((List.dropLast_sublist _).countP_le _) h
    · exact (by decide : dotCount "0" ≤ 1)
  split
  · exact (by decide : dotCount "0" ≤ 1)
  split
  · exact (by decide : dotCount "0" ≤ 1)
  split
  · unfold handleNegate
    split
    · exact (by decide : dotCount "-" ≤ 1)
    split
    · unfold dotCount at h ⊢
      rw [data_mk]
      exact le_trans ((List.drop_sublist _ _).countP_le _) h
    · unfold dotCount at h ⊢
      rw [data_mk]
      simpa [List.countP_cons] using h
  split
  · unfold handleDecimal
    split
    · exact (by decide : dotCount "0." ≤ 1)
    split
    · exact (by decide : dotCount "0." ≤ 1)
    split
    · rename_i hnot
      unfold dotCount
      rw [data_mk, List.countP_append]
      have h0 : s.display_str.data.countP (fun c => c == '.') = 0 :=
        List.countP_eq_zero.mpr fun a ha hp => hnot (by rw [eq_of_beq hp] at ha; exact ha)
      rw [h0]
      decide
    · exact h
  split
  · rename_i hdig
    exact dotCount_handleDigit s hdig h
  · exact h

theorem runFrom_cons (s : Calculator) (c : Char) (t : List Char) :
    runFrom s (c :: t) = runFrom (parse s c) t := rfl

theorem dotCount_runFrom (s : Calculator) (events : List Char)
    (h : dotCount s.display_str ≤ 1) :
    dotCount (runFrom s events).display_str ≤ 1 := by
  induction events generalizing s with
  | nil => exact h
  | cons c t ih => exact ih (parse s c) (dotCount_parse s c h)

theorem dotCount_run (w : Nat) (events : List Char) :
    dotCount (run w events).display_str ≤ 1 :=
  dotCount_runFrom (begin (init w)) events (show dotCount "0" ≤ 1 by decide)

/-! ## Behaviour of the equals handler, by cases -/

theorem handleEquals_parse0_fail (s : Calculator) (h : pyFloat s.num_str0 = none) :
    handleEquals s =
      { s with
        num_str1 := captured1 s
        no_new_number_since_last_calc := true
        display_str := "Error" } := by
  unfold handleEquals
  dsimp only []
  rw [h]

theorem handleEquals_parse1_fail (s : Calculator) (a : Frac)
    (h0 : pyFloat s.num_str0 = some a) (h1 : pyFloat (captured1 s) = none) :
    handleEquals s =
      { s with
        num_str1 := captured1 s
        no_new_number_since_last_calc := true
        display_str := "Error" } := by
  unfold handleEquals
  dsimp only []
  rw [h0]
  dsimp only []
  rw [h1]

theorem handleEquals_no_op (s : Calculator) (a b : Frac)
    (h0 : pyFloat s.num_str0 = some a) (h1 : pyFloat (captured1 s) = some b)
    (hop : opLookup s.operation_char = none) :
    handleEquals s =
      { s with
        num_str1 := captured1 s
        no_new_number_since_last_calc := true
        display_str := "0" } := by
  unfold handleEquals
  dsimp only []
  rw [h0]
  dsimp only []
  rw [h1]
  dsimp only []
  rw [hop]

theorem handleEquals_op_divzero (s : Calculator) (a b : Frac)
    (f : Frac → Frac → Option Frac)
    (h0 : pyFloat s.num_str0 = some a) (h1 : pyFloat (captured1 s) = some b)
    (hop : opLookup s.operation_char = some f) (hres : f a b = none) :
    handleEquals s =
      { s with
        num_str1 := captured1 s
        no_new_number_since_last_calc := true
        display_str := "Error" } := by
  unfold handleEquals
  dsimp only []
  rw [h0]
  dsimp only []
  rw [h1]
  dsimp only []
  rw [hop]
  dsimp only []
  rw [hres]

theorem handleEquals_op_fmt_fail (s : Calculator) (a b r : Frac)
    (f : Frac → Frac → Option Frac)
    (h0 : pyFloat s.num_str0 = some a) (h1 : pyFloat (captured1 s) = some b)
    (hop : opLookup s.operation_char = some f) (hres : f a b = some r)
    (hfmt : formatNumber s.display_size r = Except.error ()) :
    handleEquals s =
      { s with
        num_str1 := captured1 s
        no_new_number_since_last_calc := true
        display_str := "Error" } := by
  unfold handleEquals
  dsimp only []
  rw [h0]
  dsimp only []
  rw [h1]
  dsimp only []
  rw [hop]
  dsimp only []
  rw [hres]
  dsimp only []
  rw [hfmt]

theorem handleEquals_op_ok (s : Calculator) (a b r : Frac) (str : String)
    (f : Frac → Frac → Option Frac)
    (h0 : pyFloat s.num_str0 = some a) (h1 : pyFloat (captured1 s) = some b)
    (hop : opLookup s.operation_char = some f) (hres : f a b = some r)
    (hfmt : formatNumber s.display_size r = Except.ok str) :
    handleEquals s =
      { s with
        num_str1 := captured1 s
        no_new_number_since_last_calc := true
        num_str0 := str
        display_str := str } := by
  unfold handleEquals
  dsimp only []
  rw [h0]
  dsimp only []
  rw [h1]
  dsimp only []
  rw [hop]
  dsimp only []
  rw [hres]
  dsimp only []
  rw [hfmt]

theorem handleEquals_num_str1 (s : Calculator) :
    (handleEquals s).num_str1 = captured1 s := by
  unfold handleEquals
  dsimp only []
  rcases pyFloat s.num_str0 with _ | a
  · rfl
  · dsimp only []
    rcases pyFloat (captured1 s) with _ | b
    · rfl
    · dsimp only []
      rcases opLookup s.operation_char with _ | f
      · rfl
      · dsimp only []
        rcases f a b with _ | r
        · rfl
        · dsimp only []
          rcases formatNumber s.display_size r with u | str
          · rfl
          · rfl

theorem formatNumber_ok_of_five_le (sz : Nat) (q : Frac) (h5 : 5 ≤ sz) :
    ∃ r, formatNumber sz q = Except.ok r := by
  unfold formatNumber
  dsimp only []
  by_cases hdot : '.' ∈ (strOfFloat q).data
  · rw [if_pos hdot]
    split
    · rw [if_neg (by omega)]
      exact ⟨_, rfl⟩
    · exact ⟨_, rfl⟩
  · rw [if_neg hdot]
    split
    · rw [if_neg (by omega)]
      exact ⟨_, rfl⟩
    · exact ⟨_, rfl⟩

/-! ## Digit entry, general behaviour -/

theorem isDigit_ne_dash {c : Char} (h : c.isDigit = true) : (c == '-') = false := by
  cases hc : c == '-'
  · rfl
  · exact absurd h (by rw [eq_of_beq hc]; decide)

theorem digitCount_of_digits {str : String} (h : ∀ c ∈ str.data, c.isDigit = true) :
    digitCount str = str.data.length := by
  unfold digitCount
  rw [List.filter_eq_self.mpr]
  intro a ha
  rw [isDigit_ne_dot (h a ha), isDigit_ne_dash (h a ha)]
  rfl

theorem handleDigit_flags_false (s : Calculator) (c : Char)
    (hl : s.last_key_was_operation = false)
    (hn : s.no_new_number_since_last_calc = false) :
    handleDigit s c =
      if digitCount s.display_str < s.display_size then
        if s.display_str = "0" then { s with display_str := String.mk [c] }
        else { s with display_str := String.mk (s.display_str.data ++ [c]) }
      else s := by
  simp only [handleDigit, hl, hn, Bool.false_eq_true, if_false]

theorem digit_entry_aux (rest : List Char) :
    ∀ s : Calculator,
      s.last_key_was_operation = false →
      s.no_new_number_since_last_calc = false →
      (∀ c ∈ s.display_str.data, c.isDigit = true) →
      s.display_str.data ≠ [] →
      s.display_str ≠ "0" →
      s.display_str.data.length + rest.length ≤ s.display_size →
      (∀ c ∈ rest, c.isDigit = true) →
      (runFrom s rest).display_str.data = s.display_str.data ++ rest := by
  induction rest with
  | nil =>
    intro s _ _ _ _ _ _ _
    simp [runFrom]
  | cons d t ih =>
    intro s hl hn hdig hne h0 hlen hrest
    have hd : d.isDigit = true := hrest d (by simp)
    rw [runFrom_cons, parse_digit s hd, handleDigit_flags_false s d hl hn]
    have hcount : digitCount s.display_str < s.display_size := by
      rw [digitCount_of_digits hdig]
      simp only [List.length_cons] at hlen
      omega
    rw [if_pos hcount, if_neg h0]
    have hstep := ih { s with display_str := String.mk (s.display_str.data ++ [d]) }
      hl hn
      (by
        intro c hc
        rw [data_mk] at hc
        rcases List.mem_append.mp hc with h1 | h2
        · exact hdig c h1
        · simp at h2; rw [h2]; exact hd)
      (by rw [data_mk]; simp)
      (by
        intro heq
        have hdata := congrArg String.data heq
        rw [data_mk] at hdata
        have hlen2 := congrArg List.length hdata
        simp at hlen2
        exact hne (List.length_eq_zero.mp hlen2))
      (by
        rw [data_mk]
        simp at hlen ⊢
        omega)
      (fun c hc => hrest c (by simp [hc]))
    rw [hstep, data_mk]
    simp

theorem digit_entry_run (w : Nat) (d : Char) (ds : List Char)
    (hw : 2 ≤ w) (hd : d.isDigit = true) (hd0 : d ≠ '0')
    (hds : ∀ c ∈ ds, c.isDigit = true) (hlen : ds.length + 1 ≤ w) :
    (run w (d :: ds)).display_str = String.mk (d :: ds) := by
  unfold run
  rw [runFrom_cons, parse_digit _ hd, handleDigit_flags_false _ d rfl rfl]
  have hcount : digitCount (begin (init w)).display_str < (begin (init w)).display_size := by
    show digitCount "0" < w
    have h1 : digitCount "0" = 1 := by decide
    omega
  rw [if_pos hcount, if_pos (show (begin (init w)).display_str = "0" from rfl)]
  apply String.ext
  have hstep := digit_entry_aux ds { begin (init w) with display_str := String.mk [d] }
    rfl rfl
    (by intro c hc; rw [data_mk] at hc; simp at hc; rw [hc]; exact hd)
    (by rw [data_mk]; simp)
    (by
      intro heq
      have hdata := congrArg String.data heq
      rw [data_mk] at hdata
      simp at hdata
      exact hd0 hdata)
    (by rw [data_mk]; show 1 + ds.length ≤ w; omega)
    hds
  rw [hstep, data_mk, data_mk]
  simp

/-! ## The claims -/

/-- Claim C1, counterexample: with no operator ever set, handling `=` is
not a no-op and can produce `"Error"`.  From reset, `5` then `=` resets
the display from `"5"` to `"0"`; negate then `=` captures the bare sign
`"-"` as an operand, whose parse failure shows `"Error"`. -/
theorem claim1_counterexample :
    (run 9 ['5']).display_str = "5" ∧
      (run 9 ['5']).operation_char = none ∧
      (run 9 ['5', '=']).display_str = "0" ∧
      (run 9 ['5', '=']).display_str ≠ "5" ∧
      (run 9 ['n']).operation_char = none ∧
      (run 9 ['n', '=']).display_str = "Error" := by
  decide

/-- Claim C1, amended: with `pendingOperator` absent, handling `=` still
captures the display into `operand1` (when `resultPending` is not yet
set), sets `resultPending`, and resets the display to `"0"`; no
arithmetic is performed, but when either operand string fails to parse
as a float the display becomes `"Error"` instead. -/
theorem claim1_equals_without_operator (s : Calculator)
    (h : s.operation_char = none) :
    handleEquals s =
      { s with
        num_str1 := captured1 s
        no_new_number_since_last_calc := true
        display_str :=
          if pyFloat s.num_str0 = none ∨ pyFloat (captured1 s) = none
          then "Error" else "0" } := by
  rcases hp0 : pyFloat s.num_str0 with _ | a
  · rw [handleEquals_parse0_fail s hp0, if_pos (Or.inl rfl)]
  · rcases hp1 : pyFloat (captured1 s) with _ | b
    · rw [handleEquals_parse1_fail s a hp0 hp1, if_pos (Or.inr rfl)]
    · have hop : opLookup s.operation_char = none := by rw [h]; rfl
      rw [handleEquals_no_op s a b hp0 hp1 hop, if_neg]
      rintro (hx | hx) <;> exact Option.noConfusion hx

/-- Witness for the amended claim C1 at the concrete state reached by
pressing `5` from reset. -/
theorem claim1_witness :
    handleEquals (run 9 ['5']) =
      { run 9 ['5'] with
        num_str1 := captured1 (run 9 ['5'])
        no_new_number_since_last_calc := true
        display_str :=
          if pyFloat (run 9 ['5']).num_str0 = none ∨
              pyFloat (captured1 (run 9 ['5'])) = none
          then "Error" else "0" } ∧
      (handleEquals (run 9 ['5'])).display_str = "0" :=
  ⟨claim1_equals_without_operator (run 9 ['5']) rfl, by decide⟩

/-- Claim C2: the display invariant of the specification fails in the
code: negate on the display `"0"` gives the bare sign `"-"`, and a
second negate strips that sign, leaving the display EMPTY, which the
claim forbids.  The theorem evaluates the code at the failing input. -/
theorem claim2_empty_display :
    (run 9 ['n']).display_str = "-" ∧ (run 9 ['n', 'n']).display_str = "" := by
  decide

/-- Claim C3: when `=` is handled while `resultPending`
(`no_new_number_since_last_calc`) is already true, `operand1` is not
refreshed from the display, and the concrete round trips `5 + 3 =` to
`"8"` and a further `=` to `"11"` hold. -/
theorem claim3_repeated_equals (s : Calculator)
    (h : s.no_new_number_since_last_calc = true) :
    (handleEquals s).num_str1 = s.num_str1 ∧
      (run 9 ['5', '+', '3', '=']).display_str = "8" ∧
      (run 9 ['5', '+', '3', '=', '=']).display_str = "11" := by
  refine ⟨?_, by decide, by decide⟩
  rw [handleEquals_num_str1]
  unfold captured1
  rw [if_pos h]

/-- Witness for claim C3 at the concrete state reached by `5 + 3 =`. -/
theorem claim3_witness :
    (handleEquals (run 9 ['5', '+', '3', '='])).num_str1 = "3" ∧
      (run 9 ['5', '+', '3', '=', '=']).display_str = "11" := by
  have h := claim3_repeated_equals (run 9 ['5', '+', '3', '=']) rfl
  refine ⟨?_, h.2.2⟩
  rw [h.1]
  decide

/-- Claim C4, counterexample: at `display_size = 1` (which the claim
does not exclude), a reachable state with both operands parsing and a
non-division operator still shows `"Error"`, because the oversized
result routes into the scientific f-string whose negative precision
raises a `ValueError` that the handler catches. -/
theorem claim4_counterexample :
    run 1 ['n', '9', 'n', '*', '=', '*'] =
      { display_size := 1
        last_key_was_operation := true
        operation_char := some '*'
        no_new_number_since_last_calc := true
        display_str := "81"
        num_str0 := "81"
        num_str1 := "9" } ∧
      pyFloat "81" = some ⟨81, 1⟩ ∧
      pyFloat "9" = some ⟨9, 1⟩ ∧
      (run 1 ['n', '9', 'n', '*', '=', '*', '=']).display_str = "Error" := by
  decide

/-- Claim C4, amended: for `display_size ≥ 5`, handling `=` with a
pending operator shows `"Error"` exactly when an operand fails to parse
as a float or the operator is division and the captured second operand
is zero; in every error case the operands are left as captured, and the
handler is a total function (no exception reaches the caller). -/
theorem claim4_error_iff (s : Calculator) (c : Char)
    (hop : s.operation_char = some c)
    (hc : c = '+' ∨ c = '-' ∨ c = '*' ∨ c = '/')
    (hsz : 5 ≤ s.display_size) :
    ((handleEquals s).display_str = "Error" ↔
      pyFloat s.num_str0 = none ∨ pyFloat (captured1 s) = none ∨
        (c = '/' ∧ ∃ b, pyFloat (captured1 s) = some b ∧ b.isZero = true)) ∧
    ((handleEquals s).display_str = "Error" →
      (handleEquals s).num_str0 = s.num_str0 ∧
        (handleEquals s).num_str1 = captured1 s) := by
  rcases hp0 : pyFloat s.num_str0 with _ | a
  · rw [handleEquals_parse0_fail s hp0]
    exact ⟨iff_of_true rfl (Or.inl rfl), fun _ => ⟨rfl, rfl⟩⟩
  · rcases hp1 : pyFloat (captured1 s) with _ | b
    · rw [handleEquals_parse1_fail s a hp0 hp1]
      exact ⟨iff_of_true rfl (Or.inr (Or.inl rfl)), fun _ => ⟨rfl, rfl⟩⟩
    · rcases hc with rfl | rfl | rfl | rfl
      · obtain ⟨str, hfmt⟩ := formatNumber_ok_of_five_le s.display_size (a.add b) hsz
        rw [handleEquals_op_ok s a b (a.add b) str (fun x y => some (x.add y))
          hp0 hp1 (by rw [hop]; rfl) rfl hfmt]
        have hner : str ≠ "Error" :=
          wellFormedNum_ne_error (formatNumber_ok_wellFormed hfmt)
        refine ⟨iff_of_false hner ?_, fun hE => absurd hE hner⟩
        rintro (hx | hx | ⟨hx, _⟩)
        · exact Option.noConfusion hx
        · exact Option.noConfusion hx
        · exact absurd hx (by decide)
      · obtain ⟨str, hfmt⟩ := formatNumber_ok_of_five_le s.display_size (a.sub b) hsz
        rw [handleEquals_op_ok s a b (a.sub b) str (fun x y => some (x.sub y))
          hp0 hp1 (by rw [hop]; rfl) rfl hfmt]
        have hner : str ≠ "Error" :=
          wellFormedNum_ne_error (formatNumber_ok_wellFormed hfmt)
        refine ⟨iff_of_false hner ?_, fun hE => absurd hE hner⟩
        rintro (hx | hx | ⟨hx, _⟩)
        · exact Option.noConfusion hx
        · exact Option.noConfusion hx
        · exact absurd hx (by decide)
      · obtain ⟨str, hfmt⟩ := formatNumber_ok_of_five_le s.display_size (a.mul b) hsz
        rw [handleEquals_op_ok s a b (a.mul b) str (fun x y => some (x.mul y))
          hp0 hp1 (by rw [hop]; rfl) rfl hfmt]
        have hner : str ≠ "Error" :=
          wellFormedNum_ne_error (formatNumber_ok_wellFormed hfmt)
        refine ⟨iff_of_false hner ?_, fun hE => absurd hE hner⟩
        rintro (hx | hx | ⟨hx, _⟩)
        · exact Option.noConfusion hx
        · exact Option.noConfusion hx
        · exact absurd hx (by decide)
      · by_cases hb : b.isZero = true
        · rw [handleEquals_op_divzero s a b
            (fun x y => if y.isZero then none else some (x.div y))
            hp0 hp1 (by rw [hop]; rfl) (by dsimp only []; rw [if_pos hb])]
          exact ⟨iff_of_true rfl (Or.inr (Or.inr ⟨rfl, b, rfl, hb⟩)),
            fun _ => ⟨rfl, rfl⟩⟩
        · obtain ⟨str, hfmt⟩ :=
            formatNumber_ok_of_five_le s.display_size (a.div b) hsz
          rw [handleEquals_op_ok s a b (a.div b) str
            (fun x y => if y.isZero then none else some (x.div y))
            hp0 hp1 (by rw [hop]; rfl) (by dsimp only []; rw [if_neg hb]) hfmt]
          have hner : str ≠ "Error" :=
            wellFormedNum_ne_error (formatNumber_ok_wellFormed hfmt)
          refine ⟨iff_of_false hner ?_, fun hE => absurd hE hner⟩
          rintro (hx | hx | ⟨_, b2, hb2, hbz⟩)
          · exact Option.noConfusion hx
          · exact Option.noConfusion hx
          · injection hb2 with heq
            rw [← heq] at hbz
            exact hb hbz

/-- Witness for the amended claim C4: the division-by-zero direction at
the concrete state reached by `5 / 0`. -/
theorem claim4_witness :
    (parse (run 9 ['5', '/', '0']) '=').display_str = "Error" := by
  rw [parse_equals]
  exact (claim4_error_iff (run 9 ['5', '/', '0']) '/' rfl
    (Or.inr (Or.inr (Or.inr rfl))) (by decide)).1.mpr
    (Or.inr (Or.inr ⟨rfl, ⟨0, 1⟩, by decide, by decide⟩))

/-- Claim C5: handling an operator key records the character as the
pending operator, copies the display into `operand0`, and sets the
`justSetOperator` flag (so a second operator in a row just overwrites
both); the override round trip `5 + - 3 =` shows `"2"`. -/
theorem claim5_operator (s : Calculator) (c : Char)
    (hc : c = '+' ∨ c = '-' ∨ c = '*' ∨ c = '/') :
    parse s c =
      { s with
        operation_char := some c
        last_key_was_operation := true
        num_str0 := s.display_str } ∧
      (run 9 ['5', '+', '-', '3', '=']).display_str = "2" := by
  refine ⟨?_, by decide⟩
  rcases hc with rfl | rfl | rfl | rfl <;> rfl

/-- Witness for claim C5 at the concrete state reached by pressing `5`,
with the operator `+`. -/
theorem claim5_witness :
    (parse (run 9 ['5']) '+').operation_char = some '+' ∧
      (parse (run 9 ['5']) '+').num_str0 = "5" ∧
      (parse (run 9 ['5']) '+').last_key_was_operation = true := by
  have h := (claim5_operator (run 9 ['5']) '+' (Or.inl rfl)).1
  rw [h]
  exact ⟨rfl, by decide, rfl⟩

/-- Claim C6, counterexample: the typed-digit round trip fails both at
width 1 (the default `"0"` already fills the display, so the first
digit is dropped) and for sequences with a leading zero (the lone `"0"`
is replaced, so `0 5` shows `"5"`, not `"05"`). -/
theorem claim6_counterexample :
    (run 1 ['5']).display_str = "0" ∧ (run 1 ['5']).display_str ≠ "5" ∧
      (run 9 ['0', '5']).display_str = "5" ∧
      (run 9 ['0', '5']).display_str ≠ "05" := by
  decide

/-- Claim C6, amended: for `displayWidth ≥ 2` and a digit sequence of
length at most the width whose first digit is nonzero, typing the
digits from reset shows exactly that sequence; with both fresh-number
flags clear, a digit on a full display (digit count at or above the
width, not counting `.` and `-`) is dropped with no state change; at
width 9 the ten digits `1..90` leave the first nine. -/
theorem claim6_digit_entry :
    (∀ (w : Nat) (d : Char) (ds : List Char), 2 ≤ w → d.isDigit = true →
      d ≠ '0' → (∀ c ∈ ds, c.isDigit = true) → ds.length + 1 ≤ w →
      (run w (d :: ds)).display_str = String.mk (d :: ds)) ∧
    (∀ (s : Calculator) (d : Char), d.isDigit = true →
      s.last_key_was_operation = false →
      s.no_new_number_since_last_calc = false →
      s.display_size ≤ digitCount s.display_str → parse s d = s) ∧
    (run 1 ['5']).display_str = "0" ∧
    (run 9 ['1', '2', '3', '4', '5', '6', '7', '8', '9', '0']).display_str =
      "123456789" := by
  refine ⟨?_, ?_, by decide, by decide⟩
  · intro w d ds hw hd hd0 hds hlen
    exact digit_entry_run w d ds hw hd hd0 hds hlen
  · intro s d hd hl hn hfull
    rw [parse_digit s hd, handleDigit_flags_false s d hl hn, if_neg (by omega)]

/-- Witness for the amended claim C6: typing `1 2` at width 9, and a
dropped tenth digit on a full display. -/
theorem claim6_witness :
    (run 9 ['1', '2']).display_str = "12" ∧
      parse (run 9 ['1', '2', '3', '4', '5', '6', '7', '8', '9']) '0' =
        run 9 ['1', '2', '3', '4', '5', '6', '7', '8', '9'] := by
  constructor
  · have h := claim6_digit_entry.1 9 '1' ['2'] (by decide) (by decide)
      (by decide) (by decide) (by decide)
    rw [h]
  · exact claim6_digit_entry.2.1 (run 9 ['1', '2', '3', '4', '5', '6', '7', '8', '9'])
      '0' (by decide) rfl rfl (by decide)

/-- Claim C8, counterexample: a decimal-point event on a display that
already contains `.` is not always a no-op: after `3 . +` the
`justSetOperator` flag is set, so the next `.` replaces the display
`"3."` with `"0."`. -/
theorem claim8_counterexample :
    (run 9 ['3', '.', '+']).display_str = "3." ∧
      '.' ∈ (run 9 ['3', '.', '+']).display_str.data ∧
      (run 9 ['3', '.', '+', '.']).display_str = "0." ∧
      parse (run 9 ['3', '.', '+']) '.' ≠ run 9 ['3', '.', '+'] := by
  decide

/-- Claim C8, amended: from reset, the display always contains at most
one `.`; a decimal-point event on a display already containing `.` is a
silent no-op provided neither fresh-number flag is set (otherwise the
display becomes `"0."`); entering `3 . 1 . 4` shows `"3.14"`. -/
theorem claim8_decimal (s : Calculator)
    (h1 : s.last_key_was_operation = false)
    (h2 : s.no_new_number_since_last_calc = false)
    (h3 : '.' ∈ s.display_str.data) :
    (∀ (w : Nat) (events : List Char),
      dotCount (run w events).display_str ≤ 1) ∧
      parse s '.' = s ∧
      (run 9 ['3', '.', '1', '.', '4']).display_str = "3.14" := by
  refine ⟨fun w events => dotCount_run w events, ?_, by decide⟩
  rw [parse_dot]
  unfold handleDecimal
  rw [if_neg (by simp [h1]), if_neg (by simp [h2]), if_neg (not_not_intro h3)]

/-- Witness for the amended claim C8 at the concrete state reached by
`3 .`. -/
theorem claim8_witness :
    parse (run 9 ['3', '.']) '.' = run 9 ['3', '.'] ∧
      dotCount (run 9 ['3', '.', '1', '.', '4']).display_str ≤ 1 := by
  have h := claim8_decimal (run 9 ['3', '.']) rfl rfl (by decide)
  exact ⟨h.2.1, h.1 9 ['3', '.', '1', '.', '4']⟩

/-- Claim C9: handling the clear-all event `C` produces exactly the
state that `begin` (reset) produces — identity defaults for the display,
both operands, the operator and both flags — for every state. -/
theorem claim9_clear_all_is_reset (s : Calculator) :
    parse s 'C' = Calculator.begin s ∧
      Calculator.begin s =
        { display_size := s.display_size
          last_key_was_operation := false
          operation_char := none
          no_new_number_since_last_calc := false
          display_str := "0"
          num_str0 := "0"
          num_str1 := "0" } :=
  ⟨rfl, rfl⟩

/-- Claim C10: when the display is the bare sign `"-"` (as negate
produces on `"0"`) and `=` is handled with a pending operator while
`resultPending` is clear, the captured operand fails to parse and the
display shows `"Error"`. -/
theorem claim10_bare_sign_error (s : Calculator) (c : Char)
    (hop : s.operation_char = some c)
    (hc : c = '+' ∨ c = '-' ∨ c = '*' ∨ c = '/')
    (hn : s.no_new_number_since_last_calc = false)
    (hd : s.display_str = "-") :
    (handleEquals s).display_str = "Error" ∧ pyFloat "-" = none ∧
      (handleNegate { s with display_str := "0" }).display_str = "-" := by
  have hcap : captured1 s = "-" := by
    unfold captured1
    rw [hn]
    simp [hd]
  refine ⟨?_, by decide, ?_⟩
  · rcases hp0 : pyFloat s.num_str0 with _ | a
    · rw [handleEquals_parse0_fail s hp0]
    · rw [handleEquals_parse1_fail s a hp0 (by rw [hcap]; decide)]
  · unfold handleNegate
    rw [if_pos (show ({ s with display_str := "0" } : Calculator).display_str = "0"
      from rfl)]

/-- Witness for claim C10 at the concrete state reached by `n +`. -/
theorem claim10_witness :
    (parse (run 9 ['n', '+']) '=').display_str = "Error" ∧
      (run 9 ['n', '+', '=']).display_str = "Error" := by
  have h := claim10_bare_sign_error (run 9 ['n', '+']) '+' rfl (Or.inl rfl) rfl rfl
  exact ⟨by rw [parse_equals]; exact h.1, by rw [show run 9 ['n', '+', '='] =
    handleEquals (run 9 ['n', '+']) from rfl]; exact h.1⟩

end Calculator

end Calc
